import Mathlib

/-
Shallow embedding of systers_portal/blog/views.py: CRUD views for news and
resource posts scoped to a community. The views compose django-braces
LoginRequiredMixin and PermissionRequiredMixin (with raise_exception = True)
with Django generic views. Parts of the system outside this fragment
(blog.models, blog.forms, the auth backend, urls.py) are modelled from the
spec where noted.
-/

deriving instance DecidableEq for Except

namespace Blog

/-- Outcome of a request that does not produce a page: Http404 raised by
get_object_or_404 / SingleObjectMixin.get_object, PermissionDenied raised by
the braces mixins when raise_exception is set, and MultipleObjectsReturned
propagating out of a queryset get. -/
inductive HttpError where
  | notFound
  | permissionDenied
  | multipleObjects
  deriving DecidableEq, Repr

/-- Community (community.models.Community): the top-level entity owning
posts. Only its primary key and slug are relevant to blog/views.py. -/
structure Community where
  id : Nat
  slug : String
  deriving DecidableEq, Repr

/-- Modelled from the spec: blog.models is not part of this fragment. News
and Resource are two parallel post types scoped to a Community; a post
carries a slug, a community foreign key and an author foreign key, plus
content fields. One Lean structure serves for both tables. -/
structure Post where
  id : Nat
  slug : String
  communityId : Nat
  authorId : Nat
  title : String
  content : String
  deriving DecidableEq, Repr

/-- Modelled from the spec: the requesting user of the auth framework, with
the authentication flag, the superuser flag, and the object-level permission
grants as pairs of a permission string and a community primary key. -/
structure User where
  id : Nat
  authenticated : Bool
  superuser : Bool
  perms : List (String × Nat)
  deriving DecidableEq, Repr

/-- The database tables behind the ORM: communities, the News table, the
Resource table, and a fresh-id counter for inserts. -/
structure DB where
  communities : List Community
  news : List Post
  resources : List Post
  nextId : Nat
  deriving DecidableEq, Repr

/-- Queryset get as used by get_object_or_404 and by
SingleObjectMixin.get_object: no matching row raises Http404, more than one
raises MultipleObjectsReturned. -/
def getOr404 (l : List α) (p : α → Bool) : Except HttpError α :=
  match l.filter p with
  | [] => .error .notFound
  | [x] => .ok x
  | _ :: _ :: _ => .error .multipleObjects

/-- Modelled from the spec: request.user.has_perm(perm, community) of the
auth framework, true unconditionally for superusers, otherwise the
object-level grant on that community. -/
def hasPerm (u : User) (perm : String) (c : Community) : Bool :=
  u.superuser || decide ((perm, c.id) ∈ u.perms)

/-- Modelled from the spec: the value of reverse(name, kwargs): urls.py is
not part of this fragment, so a resolved URL is represented by the route
name together with its keyword arguments. -/
structure Url where
  name : String
  kwargs : List (String × String)
  deriving DecidableEq, Repr

/-- A successful response: a redirect to a computed URL, or a rendered
template (the form page redisplayed on invalid input). -/
inductive Response where
  | redirect (url : Url)
  | page (template : String)
  deriving DecidableEq, Repr

/-- Submitted form data. It deliberately has no community or author field:
the views auto-fill those via form kwargs, never from the submission. -/
structure FormData where
  slug : String
  title : String
  content : String
  deriving DecidableEq, Repr

/-- Modelled from the spec: AddNewsForm / AddResourceForm (blog.forms is not
part of this fragment) bind submitted data to a new record with community
and author auto-filled from the kwargs the view supplies through
get_form_kwargs. An empty submitted slug stands for invalid form data. -/
def addFormSave (author : User) (community : Community) (freshId : Nat)
    (fd : FormData) : Option Post :=
  if fd.slug = "" then none
  else some { id := freshId, slug := fd.slug, communityId := community.id,
              authorId := author.id, title := fd.title, content := fd.content }

/-- Modelled from the spec: EditNewsForm (blog.forms is not part of this
fragment) updates the bound instance from the submitted data. The edit view
does not override get_form_kwargs, so the form receives no author or
community kwargs and those fields of the instance are untouched. -/
def editFormSave (old : Post) (fd : FormData) : Option Post :=
  if fd.slug = "" then none
  else some { old with slug := fd.slug, title := fd.title, content := fd.content }

/-- Fuel-driven chunking loop behind paginatePages; the fuel is initialised
to the list length, which always suffices for a positive page size. -/
def paginateGo (per : Nat) : Nat → List α → List (List α)
  | 0, _ => []
  | _ + 1, [] => []
  | fuel + 1, x :: xs => (x :: xs).take per :: paginateGo per fuel ((x :: xs).drop per)

/-- The page partition the Django Paginator produces for a page size:
successive chunks of at most per items (a page size of zero is degenerate
and never used; the views set paginate_by = 5). -/
def paginatePages (per : Nat) (l : List α) : List (List α) :=
  paginateGo per l.length l

/-- The context a list view renders: the community, the full queryset, its
page partition, and the post_type template variable. -/
structure ListContext where
  community : Community
  object_list : List Post
  pages : List (List Post)
  post_type : String
  deriving DecidableEq, Repr

/-- The context a single-post detail view renders. -/
structure DetailContext where
  community : Community
  post : Post
  post_type : String
  deriving DecidableEq, Repr

namespace CommunityNewsListView

/-- CommunityNewsListView.paginate_by (views.py line 20). -/
def paginate_by : Nat := 5

/-- CommunityNewsListView.get_queryset (views.py lines 33 to 34):
News.objects.filter(community=self.object). -/
def get_queryset (db : DB) (object : Community) : List Post :=
  db.news.filter (fun n => n.communityId == object.id)

/-- CommunityNewsListView.get (views.py lines 22 to 31): fetch the
community by the slug URL kwarg over Community.objects.all, then render the
queryset paginated by paginate_by with community and post_type added to the
context. -/
def get (db : DB) (slug : String) : Except HttpError ListContext :=
  match getOr404 db.communities (fun c => c.slug == slug) with
  | .error e => .error e
  | .ok c =>
      .ok { community := c, object_list := get_queryset db c,
            pages := paginatePages paginate_by (get_queryset db c),
            post_type := "news" }

end CommunityNewsListView

namespace CommunityNewsView

/-- CommunityNewsView.get_context_data (views.py lines 51 to 59): adds the
community, the News fetched by get_object_or_404(News, slug=news_slug) over
the whole News table, and post_type = news. -/
def get_context_data (db : DB) (object : Community) (news_slug : String) :
    Except HttpError DetailContext :=
  match getOr404 db.news (fun n => n.slug == news_slug) with
  | .error e => .error e
  | .ok p => .ok { community := object, post := p, post_type := "news" }

/-- CommunityNewsView GET: DetailView with model = Community fetches the
community by the slug URL kwarg, then builds the context. -/
def get (db : DB) (slug : String) (news_slug : String) :
    Except HttpError DetailContext :=
  match getOr404 db.communities (fun c => c.slug == slug) with
  | .error e => .error e
  | .ok c => get_context_data db c news_slug

end CommunityNewsView

namespace AddCommunityNewsView

/-- AddCommunityNewsView.check_permissions (views.py lines 103 to 107):
get_object_or_404 the community by the slug URL kwarg, store it on the view,
and evaluate has_perm("add_community_news", community). -/
def check_permissions (db : DB) (slug : String) (u : User) :
    Except HttpError (Community × Bool) :=
  match getOr404 db.communities (fun c => c.slug == slug) with
  | .error e => .error e
  | .ok c => .ok (c, hasPerm u "add_community_news" c)

/-- AddCommunityNewsView.get_success_url (views.py lines 80 to 84). -/
def get_success_url (community : Community) (object : Post) : Url :=
  { name := "view_community_news",
    kwargs := [("slug", community.slug), ("news_slug", object.slug)] }

/-- AddCommunityNewsView POST dispatch: LoginRequiredMixin with
raise_exception = True rejects unauthenticated users with PermissionDenied
(the TODO at views.py lines 77 to 78 records that redirecting them instead
needs django-braces 1.5); PermissionRequiredMixin then runs
check_permissions and raises PermissionDenied on a false result; CreateView
finally binds the form (author and community auto-filled via
get_form_kwargs, views.py lines 94 to 101), saves on valid data and
redirects to get_success_url, or redisplays the form. -/
def post (db : DB) (slug : String) (u : User) (fd : FormData) :
    Except HttpError Response × DB :=
  if u.authenticated = false then (.error .permissionDenied, db)
  else
    match check_permissions db slug u with
    | .error e => (.error e, db)
    | .ok (_, false) => (.error .permissionDenied, db)
    | .ok (c, true) =>
        match addFormSave u c db.nextId fd with
        | none => (.ok (.page "blog/add_post.html"), db)
        | some obj =>
            (.ok (.redirect (get_success_url c obj)),
             { db with news := db.news ++ [obj], nextId := db.nextId + 1 })

end AddCommunityNewsView

namespace EditCommunityNewsView

/-- EditCommunityNewsView.check_permissions (views.py lines 133 to 137):
same community lookup, permission string change_community_news. -/
def check_permissions (db : DB) (slug : String) (u : User) :
    Except HttpError (Community × Bool) :=
  match getOr404 db.communities (fun c => c.slug == slug) with
  | .error e => .error e
  | .ok c => .ok (c, hasPerm u "change_community_news" c)

/-- EditCommunityNewsView.get_success_url (views.py lines 121 to 125). -/
def get_success_url (community : Community) (object : Post) : Url :=
  { name := "view_community_news",
    kwargs := [("slug", community.slug), ("news_slug", object.slug)] }

/-- EditCommunityNewsView POST dispatch: auth gate, check_permissions gate,
then UpdateView fetches the News by slug_url_kwarg = news_slug over the
whole News table, binds EditNewsForm to it (no extra kwargs), saves on
valid data and redirects to get_success_url. -/
def post (db : DB) (slug : String) (news_slug : String) (u : User)
    (fd : FormData) : Except HttpError Response × DB :=
  if u.authenticated = false then (.error .permissionDenied, db)
  else
    match check_permissions db slug u with
    | .error e => (.error e, db)
    | .ok (_, false) => (.error .permissionDenied, db)
    | .ok (c, true) =>
        match getOr404 db.news (fun n => n.slug == news_slug) with
        | .error e => (.error e, db)
        | .ok old =>
            match editFormSave old fd with
            | none => (.ok (.page "blog/edit_post.html"), db)
            | some obj =>
                (.ok (.redirect (get_success_url c obj)),
                 { db with news := db.news.map (fun n => if n.id == old.id then obj else n) })

end EditCommunityNewsView

namespace DeleteCommunityNewsView

/-- DeleteCommunityNewsView.check_permissions (views.py lines 163 to 167):
same community lookup, permission string delete_community_news. -/
def check_permissions (db : DB) (slug : String) (u : User) :
    Except HttpError (Community × Bool) :=
  match getOr404 db.communities (fun c => c.slug == slug) with
  | .error e => .error e
  | .ok c => .ok (c, hasPerm u "delete_community_news" c)

/-- DeleteCommunityNewsView.get_success_url (views.py lines 150 to 153):
the news list URL from the community slug alone. -/
def get_success_url (community : Community) : Url :=
  { name := "view_community_news_list", kwargs := [("slug", community.slug)] }

/-- DeleteCommunityNewsView POST dispatch: auth gate, check_permissions
gate, then DeleteView fetches the News by slug_url_kwarg = news_slug over
the whole News table, deletes it and redirects to get_success_url. -/
def post (db : DB) (slug : String) (news_slug : String) (u : User) :
    Except HttpError Response × DB :=
  if u.authenticated = false then (.error .permissionDenied, db)
  else
    match check_permissions db slug u with
    | .error e => (.error e, db)
    | .ok (_, false) => (.error .permissionDenied, db)
    | .ok (c, true) =>
        match getOr404 db.news (fun n => n.slug == news_slug) with
        | .error e => (.error e, db)
        | .ok old =>
            (.ok (.redirect (get_success_url c)),
             { db with news := db.news.filter (fun n => !(n.id == old.id)) })

end DeleteCommunityNewsView

namespace CommunityResourceListView

/-- CommunityResourceListView.paginate_by (views.py line 175). -/
def paginate_by : Nat := 5

/-- CommunityResourceListView.get_queryset (views.py lines 190 to 191):
Resource.objects.filter(community=self.object). -/
def get_queryset (db : DB) (object : Community) : List Post :=
  db.resources.filter (fun n => n.communityId == object.id)

/-- CommunityResourceListView.get (views.py lines 177 to 188): fetch the
community by the slug URL kwarg, then render the resource queryset
paginated by paginate_by with community and post_type = resource. -/
def get (db : DB) (slug : String) : Except HttpError ListContext :=
  match getOr404 db.communities (fun c => c.slug == slug) with
  | .error e => .error e
  | .ok c =>
      .ok { community := c, object_list := get_queryset db c,
            pages := paginatePages paginate_by (get_queryset db c),
            post_type := "resource" }

end CommunityResourceListView

namespace CommunityResourceView

/-- CommunityResourceView.get_context_data (views.py lines 208 to 217):
adds the community, the Resource fetched by get_object_or_404(Resource,
slug=resource_slug) over the whole Resource table, and post_type =
resource. -/
def get_context_data (db : DB) (object : Community) (resource_slug : String) :
    Except HttpError DetailContext :=
  match getOr404 db.resources (fun n => n.slug == resource_slug) with
  | .error e => .error e
  | .ok p => .ok { community := object, post := p, post_type := "resource" }

/-- CommunityResourceView GET: DetailView with model = Community fetches
the community by the slug URL kwarg, then builds the context. -/
def get (db : DB) (slug : String) (resource_slug : String) :
    Except HttpError DetailContext :=
  match getOr404 db.communities (fun c => c.slug == slug) with
  | .error e => .error e
  | .ok c => get_context_data db c resource_slug

end CommunityResourceView

namespace AddCommunityResourceView

/-- AddCommunityResourceView.check_permissions (views.py lines 261 to 265):
same community lookup, permission string add_community_resource. -/
def check_permissions (db : DB) (slug : String) (u : User) :
    Except HttpError (Community × Bool) :=
  match getOr404 db.communities (fun c => c.slug == slug) with
  | .error e => .error e
  | .ok c => .ok (c, hasPerm u "add_community_resource" c)

/-- AddCommunityResourceView.get_success_url (views.py lines 238 to 242). -/
def get_success_url (community : Community) (object : Post) : Url :=
  { name := "view_community_resource",
    kwargs := [("slug", community.slug), ("resource_slug", object.slug)] }

/-- AddCommunityResourceView POST dispatch: auth gate, check_permissions
gate, then CreateView binds AddResourceForm (author and community
auto-filled via get_form_kwargs, views.py lines 252 to 259), saves on valid
data and redirects to get_success_url. -/
def post (db : DB) (slug : String) (u : User) (fd : FormData) :
    Except HttpError Response × DB :=
  if u.authenticated = false then (.error .permissionDenied, db)
  else
    match check_permissions db slug u with
    | .error e => (.error e, db)
    | .ok (_, false) => (.error .permissionDenied, db)
    | .ok (c, true) =>
        match addFormSave u c db.nextId fd with
        | none => (.ok (.page "blog/add_post.html"), db)
        | some obj =>
            (.ok (.redirect (get_success_url c obj)),
             { db with resources := db.resources ++ [obj],
                       nextId := db.nextId + 1 })

end AddCommunityResourceView

/-- The five generic CRUD operations the module builds on. -/
inductive CrudOp where
  | list
  | detail
  | create
  | update
  | delete
  deriving DecidableEq, Repr

/-- The two post types of the module. -/
inductive PostType where
  | news
  | resource
  deriving DecidableEq, Repr

/-- The (operation, post type) pairs for which blog/views.py defines a view
class: CommunityNewsListView, CommunityNewsView, AddCommunityNewsView,
EditCommunityNewsView, DeleteCommunityNewsView, CommunityResourceListView,
CommunityResourceView, AddCommunityResourceView. The module defines no
edit-resource and no delete-resource view. -/
def definedViews : List (CrudOp × PostType) :=
  [(.list, .news), (.detail, .news), (.create, .news),
   (.update, .news), (.delete, .news),
   (.list, .resource), (.detail, .resource), (.create, .resource)]

/-- Swapping the News and Resource tables, used to relate the two parallel
view families. -/
def swapTables (db : DB) : DB :=
  { db with news := db.resources, resources := db.news }

/-- Relabelling a list context from the news family to the resource family. -/
def retypeList (ctx : ListContext) : ListContext :=
  { ctx with post_type := "resource" }

/-- Relabelling a detail context from the news family to the resource
family. -/
def retypeDetail (ctx : DetailContext) : DetailContext :=
  { ctx with post_type := "resource" }

/-- Exchanging the two create permission strings. -/
def swapAddPerm (s : String) : String :=
  if s = "add_community_news" then "add_community_resource"
  else if s = "add_community_resource" then "add_community_news" else s

/-- A user with the two create permission strings exchanged in every grant. -/
def swapAddPerms (u : User) : User :=
  { u with perms := u.perms.map (fun g => (swapAddPerm g.1, g.2)) }

/-- Renaming a news URL into the corresponding resource URL. -/
def resourceUrl (url : Url) : Url :=
  { name := if url.name = "view_community_news" then "view_community_resource" else url.name,
    kwargs := url.kwargs.map (fun kv => (if kv.1 = "news_slug" then "resource_slug" else kv.1, kv.2)) }

/-- Renaming a news response into the corresponding resource response. -/
def resourceResponse : Response → Response
  | .redirect url => .redirect (resourceUrl url)
  | .page t => .page t

/- Concrete data used to instantiate the theorems: two communities, a news
post and a resource post that both live in the second community while
sharing a slug reachable from the first community URL. -/

def cA : Community := { id := 1, slug := "a" }

def cB : Community := { id := 2, slug := "b" }

def nB : Post :=
  { id := 10, slug := "shared", communityId := 2, authorId := 7,
    title := "t", content := "x" }

def rB : Post :=
  { id := 11, slug := "rshared", communityId := 2, authorId := 7,
    title := "t", content := "x" }

def exDB : DB :=
  { communities := [cA, cB], news := [nB], resources := [rB], nextId := 100 }

def anon : User := { id := 0, authenticated := false, superuser := false, perms := [] }

def alice : User :=
  { id := 5, authenticated := true, superuser := false,
    perms := [("add_community_news", 1), ("add_community_resource", 1),
              ("change_community_news", 1), ("delete_community_news", 1)] }

def bob : User := { id := 6, authenticated := true, superuser := false, perms := [] }

def root0 : User := { id := 9, authenticated := true, superuser := true, perms := [] }

def fd0 : FormData := { slug := "fresh", title := "T", content := "C" }

/-- The record AddCommunityNewsView creates from fd0 for alice in cA. -/
def newPost100 : Post :=
  { id := 100, slug := "fresh", communityId := 1, authorId := 5,
    title := "T", content := "C" }

/-- The record EditCommunityNewsView saves over nB from fd0. -/
def editedPost : Post :=
  { id := 10, slug := "fresh", communityId := 2, authorId := 7,
    title := "T", content := "C" }

/- Helper lemmas about the queryset get and the paginator. -/

theorem getOr404_ok_filter {l : List α} {p : α → Bool} {x : α}
    (h : getOr404 l p = .ok x) : l.filter p = [x] := by
  unfold getOr404 at h
  rcases hf : l.filter p with _ | ⟨y, _ | ⟨z, zs⟩⟩ <;> rw [hf] at h <;> simp_all

theorem getOr404_ok_mem {l : List α} {p : α → Bool} {x : α}
    (h : getOr404 l p = .ok x) : x ∈ l ∧ p x = true := by
  have hf := getOr404_ok_filter h
  have hx : x ∈ l.filter p := by rw [hf]; exact List.mem_singleton_self x
  exact List.mem_filter.mp hx

theorem getOr404_ok_unique {l : List α} {p : α → Bool} {x y : α}
    (h : getOr404 l p = .ok x) (hy : y ∈ l) (hpy : p y = true) : y = x := by
  have hf := getOr404_ok_filter h
  have hmem : y ∈ l.filter p := List.mem_filter.mpr ⟨hy, hpy⟩
  rw [hf] at hmem
  simp at hmem
  exact hmem

theorem getOr404_notFound {l : List α} {p : α → Bool}
    (h : ∀ a ∈ l, p a = false) : getOr404 l p = (.error .notFound : Except HttpError α) := by
  unfold getOr404
  have hf : l.filter p = [] := by
    rw [List.filter_eq_nil_iff]
    intro a ha
    simp [h a ha]
  rw [hf]

theorem paginateGo_mem_length {per : Nat} :
    ∀ (fuel : Nat) (l : List α), ∀ q ∈ paginateGo per fuel l, q.length ≤ per := by
  intro fuel
  induction fuel with
  | zero => intro l q hq; simp [paginateGo] at hq
  | succ n ih =>
      intro l q hq
      cases l with
      | nil => simp [paginateGo] at hq
      | cons x xs =>
          rw [paginateGo] at hq
          rcases List.mem_cons.mp hq with h | h
          · subst h
            rw [List.length_take]
            exact Nat.min_le_left _ _
          · exact ih _ q h

theorem paginateGo_join {per : Nat} :
    ∀ (fuel : Nat) (l : List α), l.length ≤ fuel →
      (paginateGo (per + 1) fuel l).flatten = l := by
  intro fuel
  induction fuel with
  | zero =>
      intro l hl
      have : l = [] := List.length_eq_zero.mp (Nat.le_zero.mp hl)
      subst this
      simp [paginateGo]
  | succ n ih =>
      intro l hl
      cases l with
      | nil => simp [paginateGo]
      | cons x xs =>
          rw [paginateGo, List.flatten_cons]
          rw [ih ((x :: xs).drop (per + 1))
            (by simp only [List.length_drop, List.length_cons] at hl ⊢; omega)]
          exact List.take_append_drop (per + 1) (x :: xs)

theorem paginatePages_mem_length {per : Nat} (l : List α) :
    ∀ q ∈ paginatePages per l, q.length ≤ per :=
  paginateGo_mem_length l.length l

theorem paginatePages_join {per : Nat} (l : List α) :
    (paginatePages (per + 1) l).flatten = l :=
  paginateGo_join l.length l (Nat.le_refl _)

theorem hasPerm_superuser {u : User} (perm : String) (c : Community)
    (h : u.superuser = true) : hasPerm u perm c = true := by
  simp [hasPerm, h]

theorem hasPerm_swapAddPerms (u : User) (c : Community) :
    hasPerm (swapAddPerms u) "add_community_news" c =
      hasPerm u "add_community_resource" c := by
  unfold hasPerm swapAddPerms
  congr 1
  rw [decide_eq_decide]
  constructor
  · intro hmem
    rcases List.mem_map.mp hmem with ⟨g, hg, hge⟩
    have h1 : swapAddPerm g.1 = "add_community_news" := congrArg Prod.fst hge
    have h2 : g.2 = c.id := congrArg Prod.snd hge
    have hg1 : g.1 = "add_community_resource" := by
      by_cases ha : g.1 = "add_community_news"
      · rw [swapAddPerm, if_pos ha] at h1
        exact absurd h1 (by decide)
      · by_cases hb : g.1 = "add_community_resource"
        · exact hb
        · rw [swapAddPerm, if_neg ha, if_neg hb] at h1
          exact absurd h1 ha
    have : g = ("add_community_resource", c.id) := Prod.ext hg1 h2
    rw [this] at hg
    exact hg
  · intro hmem
    refine List.mem_map.mpr ⟨("add_community_resource", c.id), hmem, ?_⟩
    simp [swapAddPerm]

theorem check_permissions_swap (db : DB) (slug : String) (u : User) :
    AddCommunityResourceView.check_permissions db slug u =
      AddCommunityNewsView.check_permissions (swapTables db) slug (swapAddPerms u) := by
  unfold AddCommunityResourceView.check_permissions AddCommunityNewsView.check_permissions
  have hcomm : (swapTables db).communities = db.communities := rfl
  rw [hcomm]
  cases hc : getOr404 db.communities (fun c => c.slug == slug) with
  | error e => rfl
  | ok c =>
      dsimp only
      rw [hasPerm_swapAddPerms]

/-- C1, counterexample: the claim says the post placed in the detail context
belongs to the community fetched from the URL. It does not: requesting
community a with news slug shared renders the news of community b, because
get_object_or_404(News, slug=news_slug) searches the whole News table. -/
theorem C1_counterexample :
    CommunityNewsView.get exDB "a" "shared" =
      .ok { community := cA, post := nB, post_type := "news" } ∧
    nB.communityId ≠ cA.id := ⟨by decide, by decide⟩

/-- C1, amended: the post placed in the detail context under post is the
unique News (respectively Resource) whose slug equals the slug from the URL
across the whole table, while the community is the one fetched from the
community slug; the post need not belong to that community. -/
theorem C1_theorem (db : DB) (slug news_slug resource_slug : String) :
    (∀ ctx, CommunityNewsView.get db slug news_slug = .ok ctx →
      ctx.post_type = "news" ∧
      ctx.community ∈ db.communities ∧ ctx.community.slug = slug ∧
      ctx.post ∈ db.news ∧ ctx.post.slug = news_slug ∧
      ∀ n ∈ db.news, n.slug = news_slug → n = ctx.post) ∧
    (∀ ctx, CommunityResourceView.get db slug resource_slug = .ok ctx →
      ctx.post_type = "resource" ∧
      ctx.community ∈ db.communities ∧ ctx.community.slug = slug ∧
      ctx.post ∈ db.resources ∧ ctx.post.slug = resource_slug ∧
      ∀ n ∈ db.resources, n.slug = resource_slug → n = ctx.post) := by
  constructor
  · intro ctx h
    unfold CommunityNewsView.get CommunityNewsView.get_context_data at h
    cases hc : getOr404 db.communities (fun c => c.slug == slug) with
    | error e => rw [hc] at h; simp at h
    | ok c =>
        rw [hc] at h
        cases hp : getOr404 db.news (fun n => n.slug == news_slug) with
        | error e => rw [hp] at h; simp at h
        | ok p =>
            rw [hp] at h
            injection h with h
            subst h
            obtain ⟨hcm, hcs⟩ := getOr404_ok_mem hc
            obtain ⟨hpm, hps⟩ := getOr404_ok_mem hp
            refine ⟨rfl, hcm, by simpa using hcs, hpm, by simpa using hps, ?_⟩
            intro n hn hns
            exact getOr404_ok_unique hp hn (by simp [hns])
  · intro ctx h
    unfold CommunityResourceView.get CommunityResourceView.get_context_data at h
    cases hc : getOr404 db.communities (fun c => c.slug == slug) with
    | error e => rw [hc] at h; simp at h
    | ok c =>
        rw [hc] at h
        cases hp : getOr404 db.resources (fun n => n.slug == resource_slug) with
        | error e => rw [hp] at h; simp at h
        | ok p =>
            rw [hp] at h
            injection h with h
            subst h
            obtain ⟨hcm, hcs⟩ := getOr404_ok_mem hc
            obtain ⟨hpm, hps⟩ := getOr404_ok_mem hp
            refine ⟨rfl, hcm, by simpa using hcs, hpm, by simpa using hps, ?_⟩
            intro n hn hns
            exact getOr404_ok_unique hp hn (by simp [hns])

/-- C1, witness: the amended theorem instantiated on the concrete database:
the rendered post is the news of community b reached through the URL of
community a. -/
theorem C1_witness :
    nB ∈ exDB.news ∧ nB.slug = "shared" := by
  have h := (C1_theorem exDB "a" "shared" "rshared").1
    { community := cA, post := nB, post_type := "news" } (by decide)
  exact ⟨h.2.2.2.1, h.2.2.2.2.1⟩

/-- C2, counterexample: the claim says every CRUD operation among list,
detail, create, update and delete has both a news view and a resource view;
blog/views.py defines no update-resource (and no delete-resource) view. -/
theorem C2_counterexample :
    ¬ (∀ op : CrudOp,
        (op, PostType.news) ∈ definedViews ∧ (op, PostType.resource) ∈ definedViews) := by
  intro h
  exact absurd (h CrudOp.update).2 (by decide)

/-- C2, amended: both a news and a resource view exist for list, detail and
create, and each such pair behaves identically except for the table
operated on and the post_type context value (for create this renaming also
carries the permission string and the success route name with the post
type); the update and delete views exist only for news. -/
theorem C2_theorem :
    ((CrudOp.list, PostType.news) ∈ definedViews ∧
      (CrudOp.list, PostType.resource) ∈ definedViews) ∧
    ((CrudOp.detail, PostType.news) ∈ definedViews ∧
      (CrudOp.detail, PostType.resource) ∈ definedViews) ∧
    ((CrudOp.create, PostType.news) ∈ definedViews ∧
      (CrudOp.create, PostType.resource) ∈ definedViews) ∧
    ((CrudOp.update, PostType.news) ∈ definedViews ∧
      (CrudOp.update, PostType.resource) ∉ definedViews) ∧
    ((CrudOp.delete, PostType.news) ∈ definedViews ∧
      (CrudOp.delete, PostType.resource) ∉ definedViews) ∧
    (∀ db slug, CommunityResourceListView.get db slug =
      (CommunityNewsListView.get (swapTables db) slug).map retypeList) ∧
    (∀ db slug rslug, CommunityResourceView.get db slug rslug =
      (CommunityNewsView.get (swapTables db) slug rslug).map retypeDetail) ∧
    (∀ db slug u fd,
      AddCommunityResourceView.post db slug u fd =
        ((AddCommunityNewsView.post (swapTables db) slug (swapAddPerms u) fd).1.map resourceResponse,
         swapTables (AddCommunityNewsView.post (swapTables db) slug (swapAddPerms u) fd).2)) := by
  refine ⟨⟨by decide, by decide⟩, ⟨by decide, by decide⟩, ⟨by decide, by decide⟩,
    ⟨by decide, by decide⟩, ⟨by decide, by decide⟩, ?_, ?_, ?_⟩
  · intro db slug
    unfold CommunityResourceListView.get CommunityNewsListView.get
    have hcomm : (swapTables db).communities = db.communities := rfl
    rw [hcomm]
    cases hc : getOr404 db.communities (fun c => c.slug == slug) with
    | error e => simp [Except.map]
    | ok c =>
        simp [Except.map, retypeList, CommunityResourceListView.get_queryset,
          CommunityNewsListView.get_queryset, CommunityResourceListView.paginate_by,
          CommunityNewsListView.paginate_by, swapTables]
  · intro db slug rslug
    unfold CommunityResourceView.get CommunityNewsView.get
      CommunityResourceView.get_context_data CommunityNewsView.get_context_data
    have hcomm : (swapTables db).communities = db.communities := rfl
    have hnews : (swapTables db).news = db.resources := rfl
    rw [hcomm, hnews]
    cases hc : getOr404 db.communities (fun c => c.slug == slug) with
    | error e => simp [Except.map]
    | ok c =>
        cases hp : getOr404 db.resources (fun n => n.slug == rslug) with
        | error e => simp [Except.map]
        | ok p => simp [Except.map, retypeDetail]
  · intro db slug u fd
    unfold AddCommunityResourceView.post AddCommunityNewsView.post
    have hau : (swapAddPerms u).authenticated = u.authenticated := rfl
    rw [hau, ← check_permissions_swap]
    cases hu : u.authenticated with
    | false => simp [swapTables, Except.map]
    | true =>
        cases hc : AddCommunityResourceView.check_permissions db slug u with
        | error e => simp [Except.map, swapTables]
        | ok cb =>
            obtain ⟨c, b⟩ := cb
            cases b with
            | false => simp [Except.map, swapTables]
            | true =>
                dsimp only
                have hsave : addFormSave (swapAddPerms u) c (swapTables db).nextId fd =
                    addFormSave u c db.nextId fd := rfl
                rw [hsave]
                cases hf : addFormSave u c db.nextId fd with
                | none => simp [Except.map, swapTables, resourceResponse]
                | some obj =>
                    simp [Except.map, swapTables, resourceResponse, resourceUrl,
                      AddCommunityNewsView.get_success_url,
                      AddCommunityResourceView.get_success_url]

theorem addFormSave_fields {u : User} {c : Community} {i : Nat} {fd : FormData} {p : Post}
    (h : addFormSave u c i fd = some p) :
    p.communityId = c.id ∧ p.authorId = u.id ∧ p.id = i ∧ p.slug = fd.slug := by
  unfold addFormSave at h
  by_cases hs : fd.slug = ""
  · rw [if_pos hs] at h; simp at h
  · rw [if_neg hs] at h
    injection h with h
    subst h
    exact ⟨rfl, rfl, rfl, rfl⟩

theorem editFormSave_fields {old p : Post} {fd : FormData}
    (h : editFormSave old fd = some p) :
    p.communityId = old.communityId ∧ p.authorId = old.authorId ∧
      p.id = old.id ∧ p.slug = fd.slug := by
  unfold editFormSave at h
  by_cases hs : fd.slug = ""
  · rw [if_pos hs] at h; simp at h
  · rw [if_neg hs] at h
    injection h with h
    subst h
    exact ⟨rfl, rfl, rfl, rfl⟩

theorem lookup_notFound {db : DB} {slug : String}
    (h : ∀ c ∈ db.communities, c.slug ≠ slug) :
    getOr404 db.communities (fun c => c.slug == slug) =
      (.error .notFound : Except HttpError Community) :=
  getOr404_notFound (fun c hc => by simp [h c hc])

theorem checkPermissions_notFound (db : DB) (slug : String) (u : User)
    (h : ∀ c ∈ db.communities, c.slug ≠ slug) :
    AddCommunityNewsView.check_permissions db slug u = .error .notFound ∧
    EditCommunityNewsView.check_permissions db slug u = .error .notFound ∧
    DeleteCommunityNewsView.check_permissions db slug u = .error .notFound ∧
    AddCommunityResourceView.check_permissions db slug u = .error .notFound := by
  have hl := lookup_notFound h
  refine ⟨?_, ?_, ?_, ?_⟩
  · unfold AddCommunityNewsView.check_permissions; rw [hl]
  · unfold EditCommunityNewsView.check_permissions; rw [hl]
  · unfold DeleteCommunityNewsView.check_permissions; rw [hl]
  · unfold AddCommunityResourceView.check_permissions; rw [hl]

theorem mutating_notFound (db : DB) (slug nslug : String) (u : User) (fd : FormData)
    (hauth : u.authenticated = true)
    (h : ∀ c ∈ db.communities, c.slug ≠ slug) :
    AddCommunityNewsView.post db slug u fd = (.error .notFound, db) ∧
    EditCommunityNewsView.post db slug nslug u fd = (.error .notFound, db) ∧
    DeleteCommunityNewsView.post db slug nslug u = (.error .notFound, db) ∧
    AddCommunityResourceView.post db slug u fd = (.error .notFound, db) := by
  obtain ⟨h1, h2, h3, h4⟩ := checkPermissions_notFound db slug u h
  refine ⟨?_, ?_, ?_, ?_⟩
  · unfold AddCommunityNewsView.post; rw [hauth, h1]; simp
  · unfold EditCommunityNewsView.post; rw [hauth, h2]; simp
  · unfold DeleteCommunityNewsView.post; rw [hauth, h3]; simp
  · unfold AddCommunityResourceView.post; rw [hauth, h4]; simp

theorem mutating_db_unchanged (db : DB) (slug nslug : String) (u : User) (fd : FormData)
    (h : ∀ c ∈ db.communities, c.slug ≠ slug) :
    (AddCommunityNewsView.post db slug u fd).2 = db ∧
    (EditCommunityNewsView.post db slug nslug u fd).2 = db ∧
    (DeleteCommunityNewsView.post db slug nslug u).2 = db ∧
    (AddCommunityResourceView.post db slug u fd).2 = db := by
  obtain ⟨h1, h2, h3, h4⟩ := checkPermissions_notFound db slug u h
  refine ⟨?_, ?_, ?_, ?_⟩
  · unfold AddCommunityNewsView.post
    cases hu : u.authenticated with
    | false => simp
    | true => rw [h1]; simp
  · unfold EditCommunityNewsView.post
    cases hu : u.authenticated with
    | false => simp
    | true => rw [h2]; simp
  · unfold DeleteCommunityNewsView.post
    cases hu : u.authenticated with
    | false => simp
    | true => rw [h3]; simp
  · unfold AddCommunityResourceView.post
    cases hu : u.authenticated with
    | false => simp
    | true => rw [h4]; simp

/-- C3, counterexample: the claim says every successful update saves the
requesting user as author; editing the news of community b as the superuser
root0 through the URL of community a keeps author 7 and community 2, so the
saved record matches neither the requesting user nor the URL community. -/
theorem C3_counterexample :
    EditCommunityNewsView.post exDB "a" "shared" root0 fd0 =
      (.ok (.redirect { name := "view_community_news",
                        kwargs := [("slug", "a"), ("news_slug", "fresh")] }),
       { exDB with news := [editedPost] }) ∧
    editedPost.authorId ≠ root0.id ∧ editedPost.communityId ≠ cA.id :=
  ⟨by decide, by decide, by decide⟩

/-- C3, amended: on a successful create the saved record carries the URL
community and the requesting user as author, neither coming from the
submitted form data (FormData has no such fields); on a successful update
the community and author fields keep the existing record's values, because
the edit view passes no author or community kwargs to its form. -/
theorem C3_theorem (db : DB) (slug nslug : String) (u : User) (fd : FormData) :
    (∀ r db2, AddCommunityNewsView.post db slug u fd = (.ok (.redirect r), db2) →
      ∃ c p, getOr404 db.communities (fun c0 => c0.slug == slug) = .ok c ∧
        addFormSave u c db.nextId fd = some p ∧
        db2.news = db.news ++ [p] ∧ p.communityId = c.id ∧ p.authorId = u.id) ∧
    (∀ r db2, AddCommunityResourceView.post db slug u fd = (.ok (.redirect r), db2) →
      ∃ c p, getOr404 db.communities (fun c0 => c0.slug == slug) = .ok c ∧
        addFormSave u c db.nextId fd = some p ∧
        db2.resources = db.resources ++ [p] ∧ p.communityId = c.id ∧ p.authorId = u.id) ∧
    (∀ r db2, EditCommunityNewsView.post db slug nslug u fd = (.ok (.redirect r), db2) →
      ∃ old p, getOr404 db.news (fun n => n.slug == nslug) = .ok old ∧
        editFormSave old fd = some p ∧
        db2.news = db.news.map (fun n => if n.id == old.id then p else n) ∧
        p.communityId = old.communityId ∧ p.authorId = old.authorId) := by
  refine ⟨?_, ?_, ?_⟩
  · intro r db2 h
    unfold AddCommunityNewsView.post AddCommunityNewsView.check_permissions at h
    cases hu : u.authenticated with
    | false => rw [hu] at h; simp at h
    | true =>
        rw [hu] at h
        cases hc : getOr404 db.communities (fun c0 => c0.slug == slug) with
        | error e => rw [hc] at h; simp at h
        | ok c =>
            rw [hc] at h
            dsimp only at h
            cases hp : hasPerm u "add_community_news" c with
            | false => rw [hp] at h; simp at h
            | true =>
                rw [hp] at h
                dsimp only at h
                cases hf : addFormSave u c db.nextId fd with
                | none => rw [hf] at h; simp at h
                | some obj =>
                    rw [hf] at h
                    dsimp only at h
                    injection h with h1 h2
                    subst h2
                    obtain ⟨hcid, haid, _, _⟩ := addFormSave_fields hf
                    exact ⟨c, obj, rfl, hf, rfl, hcid, haid⟩
  · intro r db2 h
    unfold AddCommunityResourceView.post AddCommunityResourceView.check_permissions at h
    cases hu : u.authenticated with
    | false => rw [hu] at h; simp at h
    | true =>
        rw [hu] at h
        cases hc : getOr404 db.communities (fun c0 => c0.slug == slug) with
        | error e => rw [hc] at h; simp at h
        | ok c =>
            rw [hc] at h
            dsimp only at h
            cases hp : hasPerm u "add_community_resource" c with
            | false => rw [hp] at h; simp at h
            | true =>
                rw [hp] at h
                dsimp only at h
                cases hf : addFormSave u c db.nextId fd with
                | none => rw [hf] at h; simp at h
                | some obj =>
                    rw [hf] at h
                    dsimp only at h
                    injection h with h1 h2
                    subst h2
                    obtain ⟨hcid, haid, _, _⟩ := addFormSave_fields hf
                    exact ⟨c, obj, rfl, hf, rfl, hcid, haid⟩
  · intro r db2 h
    unfold EditCommunityNewsView.post EditCommunityNewsView.check_permissions at h
    cases hu : u.authenticated with
    | false => rw [hu] at h; simp at h
    | true =>
        rw [hu] at h
        cases hc : getOr404 db.communities (fun c0 => c0.slug == slug) with
        | error e => rw [hc] at h; simp at h
        | ok c =>
            rw [hc] at h
            dsimp only at h
            cases hp : hasPerm u "change_community_news" c with
            | false => rw [hp] at h; simp at h
            | true =>
                rw [hp] at h
                dsimp only at h
                cases ho : getOr404 db.news (fun n => n.slug == nslug) with
                | error e => rw [ho] at h; simp at h
                | ok old =>
                    rw [ho] at h
                    dsimp only at h
                    cases hf : editFormSave old fd with
                    | none => rw [hf] at h; simp at h
                    | some obj =>
                        rw [hf] at h
                        dsimp only at h
                        injection h with h1 h2
                        subst h2
                        obtain ⟨hcid, haid, _, _⟩ := editFormSave_fields hf
                        exact ⟨old, obj, rfl, hf, rfl, hcid, haid⟩

/-- C3, witness: the amended theorem instantiated on the concrete database,
on the create conjunct: alice creates news in community a and the saved
record carries community 1 and author 5. -/
theorem C3_witness :
    ∃ c p, getOr404 exDB.communities (fun c0 => c0.slug == "a") = .ok c ∧
      addFormSave alice c exDB.nextId fd0 = some p ∧
      ({ exDB with news := exDB.news ++ [newPost100], nextId := 101 } : DB).news =
        exDB.news ++ [p] ∧
      p.communityId = c.id ∧ p.authorId = alice.id :=
  (C3_theorem exDB "a" "shared" alice fd0).1
    (AddCommunityNewsView.get_success_url cA newPost100)
    { exDB with news := exDB.news ++ [newPost100], nextId := 101 }
    (by decide)

/-- C4: an authenticated user who lacks the corresponding permission string
on the target community gets PermissionDenied from each mutating view (the
braces mixins raise instead of redirecting since raise_exception is set)
and the database is unchanged. -/
theorem C4_theorem (db : DB) (slug nslug : String) (u : User) (fd : FormData)
    (c : Community) (hauth : u.authenticated = true)
    (hc : getOr404 db.communities (fun c0 => c0.slug == slug) = .ok c) :
    (hasPerm u "add_community_news" c = false →
      AddCommunityNewsView.post db slug u fd = (.error .permissionDenied, db)) ∧
    (hasPerm u "change_community_news" c = false →
      EditCommunityNewsView.post db slug nslug u fd = (.error .permissionDenied, db)) ∧
    (hasPerm u "delete_community_news" c = false →
      DeleteCommunityNewsView.post db slug nslug u = (.error .permissionDenied, db)) ∧
    (hasPerm u "add_community_resource" c = false →
      AddCommunityResourceView.post db slug u fd = (.error .permissionDenied, db)) := by
  refine ⟨?_, ?_, ?_, ?_⟩
  · intro hp
    unfold AddCommunityNewsView.post AddCommunityNewsView.check_permissions
    rw [hauth, hc]
    simp [hp]
  · intro hp
    unfold EditCommunityNewsView.post EditCommunityNewsView.check_permissions
    rw [hauth, hc]
    simp [hp]
  · intro hp
    unfold DeleteCommunityNewsView.post DeleteCommunityNewsView.check_permissions
    rw [hauth, hc]
    simp [hp]
  · intro hp
    unfold AddCommunityResourceView.post AddCommunityResourceView.check_permissions
    rw [hauth, hc]
    simp [hp]

/-- C4, witness: bob is authenticated and holds no grants, so each of the
four mutating views answers PermissionDenied on community a and leaves the
database unchanged. -/
theorem C4_witness :
    AddCommunityNewsView.post exDB "a" bob fd0 = (.error .permissionDenied, exDB) ∧
    EditCommunityNewsView.post exDB "a" "shared" bob fd0 = (.error .permissionDenied, exDB) ∧
    DeleteCommunityNewsView.post exDB "a" "shared" bob = (.error .permissionDenied, exDB) ∧
    AddCommunityResourceView.post exDB "a" bob fd0 = (.error .permissionDenied, exDB) := by
  have h := C4_theorem exDB "a" "shared" bob fd0 cA (by decide) (by decide)
  exact ⟨h.1 (by decide), h.2.1 (by decide), h.2.2.1 (by decide), h.2.2.2 (by decide)⟩

/-- C5, counterexample: the claim says every request with a nonexistent
community slug fails with 404; an unauthenticated request to a mutating
view is rejected by the login gate with PermissionDenied before the
community lookup runs, so it does not yield 404. -/
theorem C5_counterexample :
    AddCommunityNewsView.post exDB "nope" anon fd0 = (.error .permissionDenied, exDB) ∧
    (Except.error HttpError.permissionDenied : Except HttpError Response) ≠
      .error .notFound :=
  ⟨by decide, by decide⟩

/-- C5, amended: with a community slug matching no Community, the list and
detail views answer 404 for every request, the mutating views answer 404
for every authenticated request (an unauthenticated one is rejected by the
login gate instead), and in every case the database is unchanged. -/
theorem C5_theorem (db : DB) (slug nslug rslug : String) (u : User) (fd : FormData)
    (h : ∀ c ∈ db.communities, c.slug ≠ slug) :
    CommunityNewsListView.get db slug = .error .notFound ∧
    CommunityNewsView.get db slug nslug = .error .notFound ∧
    CommunityResourceListView.get db slug = .error .notFound ∧
    CommunityResourceView.get db slug rslug = .error .notFound ∧
    (u.authenticated = true →
      AddCommunityNewsView.post db slug u fd = (.error .notFound, db) ∧
      EditCommunityNewsView.post db slug nslug u fd = (.error .notFound, db) ∧
      DeleteCommunityNewsView.post db slug nslug u = (.error .notFound, db) ∧
      AddCommunityResourceView.post db slug u fd = (.error .notFound, db)) ∧
    (AddCommunityNewsView.post db slug u fd).2 = db ∧
    (EditCommunityNewsView.post db slug nslug u fd).2 = db ∧
    (DeleteCommunityNewsView.post db slug nslug u).2 = db ∧
    (AddCommunityResourceView.post db slug u fd).2 = db := by
  have hl := lookup_notFound h
  refine ⟨?_, ?_, ?_, ?_,
    fun ha => mutating_notFound db slug nslug u fd ha h,
    mutating_db_unchanged db slug nslug u fd h⟩
  · unfold CommunityNewsListView.get; rw [hl]
  · unfold CommunityNewsView.get; rw [hl]
  · unfold CommunityResourceListView.get; rw [hl]
  · unfold CommunityResourceView.get; rw [hl]

/-- C5, witness: the amended theorem instantiated on the concrete database
with the nonexistent slug nope, for the authenticated bob and, on the
state-preservation side, for the anonymous user. -/
theorem C5_witness :
    CommunityNewsListView.get exDB "nope" = .error .notFound ∧
    AddCommunityNewsView.post exDB "nope" bob fd0 = (.error .notFound, exDB) ∧
    (EditCommunityNewsView.post exDB "nope" "shared" anon fd0).2 = exDB := by
  have h := C5_theorem exDB "nope" "shared" "rshared" bob fd0 (by decide)
  have h2 := C5_theorem exDB "nope" "shared" "rshared" anon fd0 (by decide)
  exact ⟨h.1, (h.2.2.2.2.1 (by decide)).1, h2.2.2.2.2.2.2.1⟩

/-- C6: for every superuser and every existing community, the permission
check of each mutating view returns true together with the community
matching the URL slug, so a superuser is never denied any of the four
operations. -/
theorem C6_theorem (db : DB) (slug : String) (u : User) (c : Community)
    (hsup : u.superuser = true)
    (hc : getOr404 db.communities (fun c0 => c0.slug == slug) = .ok c) :
    AddCommunityNewsView.check_permissions db slug u = .ok (c, true) ∧
    EditCommunityNewsView.check_permissions db slug u = .ok (c, true) ∧
    DeleteCommunityNewsView.check_permissions db slug u = .ok (c, true) ∧
    AddCommunityResourceView.check_permissions db slug u = .ok (c, true) := by
  refine ⟨?_, ?_, ?_, ?_⟩
  · unfold AddCommunityNewsView.check_permissions
    rw [hc]
    dsimp only
    rw [hasPerm_superuser _ _ hsup]
  · unfold EditCommunityNewsView.check_permissions
    rw [hc]
    dsimp only
    rw [hasPerm_superuser _ _ hsup]
  · unfold DeleteCommunityNewsView.check_permissions
    rw [hc]
    dsimp only
    rw [hasPerm_superuser _ _ hsup]
  · unfold AddCommunityResourceView.check_permissions
    rw [hc]
    dsimp only
    rw [hasPerm_superuser _ _ hsup]

/-- C6, witness: the superuser root0 holds no explicit grants yet passes
all four permission checks on community a. -/
theorem C6_witness :
    AddCommunityNewsView.check_permissions exDB "a" root0 = .ok (cA, true) ∧
    EditCommunityNewsView.check_permissions exDB "a" root0 = .ok (cA, true) ∧
    DeleteCommunityNewsView.check_permissions exDB "a" root0 = .ok (cA, true) ∧
    AddCommunityResourceView.check_permissions exDB "a" root0 = .ok (cA, true) :=
  C6_theorem exDB "a" root0 cA (by decide) (by decide)

/-- C7: every successful submit of add-news or edit-news redirects to the
view_community_news URL built from the URL community slug and the saved
post slug; every successful deletion redirects to view_community_news_list
built from the community slug; every successful add-resource submit
redirects to view_community_resource built from the community slug and the
saved resource slug. -/
theorem C7_theorem (db : DB) (slug nslug : String) (u : User) (fd : FormData) :
    (∀ url db2, AddCommunityNewsView.post db slug u fd = (.ok (.redirect url), db2) →
      ∃ c p, getOr404 db.communities (fun c0 => c0.slug == slug) = .ok c ∧
        addFormSave u c db.nextId fd = some p ∧
        url = AddCommunityNewsView.get_success_url c p ∧
        url = { name := "view_community_news",
                kwargs := [("slug", c.slug), ("news_slug", p.slug)] }) ∧
    (∀ url db2, EditCommunityNewsView.post db slug nslug u fd = (.ok (.redirect url), db2) →
      ∃ c old p, getOr404 db.communities (fun c0 => c0.slug == slug) = .ok c ∧
        getOr404 db.news (fun n => n.slug == nslug) = .ok old ∧
        editFormSave old fd = some p ∧
        url = EditCommunityNewsView.get_success_url c p ∧
        url = { name := "view_community_news",
                kwargs := [("slug", c.slug), ("news_slug", p.slug)] }) ∧
    (∀ url db2, DeleteCommunityNewsView.post db slug nslug u = (.ok (.redirect url), db2) →
      ∃ c, getOr404 db.communities (fun c0 => c0.slug == slug) = .ok c ∧
        url = DeleteCommunityNewsView.get_success_url c ∧
        url = { name := "view_community_news_list", kwargs := [("slug", c.slug)] }) ∧
    (∀ url db2, AddCommunityResourceView.post db slug u fd = (.ok (.redirect url), db2) →
      ∃ c p, getOr404 db.communities (fun c0 => c0.slug == slug) = .ok c ∧
        addFormSave u c db.nextId fd = some p ∧
        url = AddCommunityResourceView.get_success_url c p ∧
        url = { name := "view_community_resource",
                kwargs := [("slug", c.slug), ("resource_slug", p.slug)] }) := by
  refine ⟨?_, ?_, ?_, ?_⟩
  · intro url db2 h
    unfold AddCommunityNewsView.post AddCommunityNewsView.check_permissions at h
    cases hu : u.authenticated with
    | false => rw [hu] at h; simp at h
    | true =>
        rw [hu] at h
        cases hc : getOr404 db.communities (fun c0 => c0.slug == slug) with
        | error e => rw [hc] at h; simp at h
        | ok c =>
            rw [hc] at h
            dsimp only at h
            cases hp : hasPerm u "add_community_news" c with
            | false => rw [hp] at h; simp at h
            | true =>
                rw [hp] at h
                dsimp only at h
                cases hf : addFormSave u c db.nextId fd with
                | none => rw [hf] at h; simp at h
                | some obj =>
                    rw [hf] at h
                    dsimp only at h
                    injection h with h1 h2
                    injection h1 with h1
                    injection h1 with h1
                    subst h1
                    exact ⟨c, obj, rfl, hf, rfl, rfl⟩
  · intro url db2 h
    unfold EditCommunityNewsView.post EditCommunityNewsView.check_permissions at h
    cases hu : u.authenticated with
    | false => rw [hu] at h; simp at h
    | true =>
        rw [hu] at h
        cases hc : getOr404 db.communities (fun c0 => c0.slug == slug) with
        | error e => rw [hc] at h; simp at h
        | ok c =>
            rw [hc] at h
            dsimp only at h
            cases hp : hasPerm u "change_community_news" c with
            | false => rw [hp] at h; simp at h
            | true =>
                rw [hp] at h
                dsimp only at h
                cases ho : getOr404 db.news (fun n => n.slug == nslug) with
                | error e => rw [ho] at h; simp at h
                | ok old =>
                    rw [ho] at h
                    dsimp only at h
                    cases hf : editFormSave old fd with
                    | none => rw [hf] at h; simp at h
                    | some obj =>
                        rw [hf] at h
                        dsimp only at h
                        injection h with h1 h2
                        injection h1 with h1
                        injection h1 with h1
                        subst h1
                        exact ⟨c, old, obj, rfl, rfl, hf, rfl, rfl⟩
  · intro url db2 h
    unfold DeleteCommunityNewsView.post DeleteCommunityNewsView.check_permissions at h
    cases hu : u.authenticated with
    | false => rw [hu] at h; simp at h
    | true =>
        rw [hu] at h
        cases hc : getOr404 db.communities (fun c0 => c0.slug == slug) with
        | error e => rw [hc] at h; simp at h
        | ok c =>
            rw [hc] at h
            dsimp only at h
            cases hp : hasPerm u "delete_community_news" c with
            | false => rw [hp] at h; simp at h
            | true =>
                rw [hp] at h
                dsimp only at h
                cases ho : getOr404 db.news (fun n => n.slug == nslug) with
                | error e => rw [ho] at h; simp at h
                | ok old =>
                    rw [ho] at h
                    dsimp only at h
                    injection h with h1 h2
                    injection h1 with h1
                    injection h1 with h1
                    subst h1
                    exact ⟨c, rfl, rfl, rfl⟩
  · intro url db2 h
    unfold AddCommunityResourceView.post AddCommunityResourceView.check_permissions at h
    cases hu : u.authenticated with
    | false => rw [hu] at h; simp at h
    | true =>
        rw [hu] at h
        cases hc : getOr404 db.communities (fun c0 => c0.slug == slug) with
        | error e => rw [hc] at h; simp at h
        | ok c =>
            rw [hc] at h
            dsimp only at h
            cases hp : hasPerm u "add_community_resource" c with
            | false => rw [hp] at h; simp at h
            | true =>
                rw [hp] at h
                dsimp only at h
                cases hf : addFormSave u c db.nextId fd with
                | none => rw [hf] at h; simp at h
                | some obj =>
                    rw [hf] at h
                    dsimp only at h
                    injection h with h1 h2
                    injection h1 with h1
                    injection h1 with h1
                    subst h1
                    exact ⟨c, obj, rfl, hf, rfl, rfl⟩

/-- C7, witness: alice successfully creates news in community a and the
redirect is the view_community_news URL for slugs a and fresh. -/
theorem C7_witness :
    ∃ c p, getOr404 exDB.communities (fun c0 => c0.slug == "a") = .ok c ∧
      addFormSave alice c exDB.nextId fd0 = some p ∧
      AddCommunityNewsView.get_success_url cA newPost100 =
        AddCommunityNewsView.get_success_url c p ∧
      AddCommunityNewsView.get_success_url cA newPost100 =
        { name := "view_community_news",
          kwargs := [("slug", c.slug), ("news_slug", p.slug)] } :=
  (C7_theorem exDB "a" "shared" alice fd0).1
    (AddCommunityNewsView.get_success_url cA newPost100)
    { exDB with news := exDB.news ++ [newPost100], nextId := 101 }
    (by decide)

/-- C8: the queryset a list view renders is exactly the set of posts of the
respective table whose community foreign key equals the community fetched
by the URL slug, and the page partition covers it without loss. -/
theorem C8_theorem (db : DB) (slug : String) :
    (∀ ctx, CommunityNewsListView.get db slug = .ok ctx →
      (∀ p, p ∈ ctx.object_list ↔ p ∈ db.news ∧ p.communityId = ctx.community.id) ∧
      ctx.pages.flatten = ctx.object_list) ∧
    (∀ ctx, CommunityResourceListView.get db slug = .ok ctx →
      (∀ p, p ∈ ctx.object_list ↔ p ∈ db.resources ∧ p.communityId = ctx.community.id) ∧
      ctx.pages.flatten = ctx.object_list) := by
  constructor
  · intro ctx h
    unfold CommunityNewsListView.get at h
    cases hc : getOr404 db.communities (fun c => c.slug == slug) with
    | error e => rw [hc] at h; simp at h
    | ok c =>
        rw [hc] at h
        injection h with h
        subst h
        constructor
        · intro p
          dsimp only
          unfold CommunityNewsListView.get_queryset
          rw [List.mem_filter]
          simp
        · dsimp only
          exact @paginatePages_join _ 4 _
  · intro ctx h
    unfold CommunityResourceListView.get at h
    cases hc : getOr404 db.communities (fun c => c.slug == slug) with
    | error e => rw [hc] at h; simp at h
    | ok c =>
        rw [hc] at h
        injection h with h
        subst h
        constructor
        · intro p
          dsimp only
          unfold CommunityResourceListView.get_queryset
          rw [List.mem_filter]
          simp
        · dsimp only
          exact @paginatePages_join _ 4 _

/-- C8, witness: the news list of community b renders exactly the news of
community b and the single page carries the full queryset. -/
theorem C8_witness :
    (nB ∈ ([nB] : List Post) ↔ nB ∈ exDB.news ∧ nB.communityId = cB.id) ∧
    ([[nB]] : List (List Post)).flatten = [nB] := by
  have h := (C8_theorem exDB "b").1
    { community := cB, object_list := [nB], pages := [[nB]], post_type := "news" }
    (by decide)
  exact ⟨h.1 nB, h.2⟩

/-- C9: both list views paginate by paginate_by = 5, so every rendered page
holds at most five posts. -/
theorem C9_theorem (db : DB) (slug : String) :
    (∀ ctx, CommunityNewsListView.get db slug = .ok ctx →
      ∀ q ∈ ctx.pages, q.length ≤ CommunityNewsListView.paginate_by) ∧
    (∀ ctx, CommunityResourceListView.get db slug = .ok ctx →
      ∀ q ∈ ctx.pages, q.length ≤ CommunityResourceListView.paginate_by) ∧
    CommunityNewsListView.paginate_by = 5 ∧
    CommunityResourceListView.paginate_by = 5 := by
  refine ⟨?_, ?_, rfl, rfl⟩
  · intro ctx h
    unfold CommunityNewsListView.get at h
    cases hc : getOr404 db.communities (fun c => c.slug == slug) with
    | error e => rw [hc] at h; simp at h
    | ok c =>
        rw [hc] at h
        injection h with h
        subst h
        intro q hq
        exact paginateGo_mem_length _ _ q hq
  · intro ctx h
    unfold CommunityResourceListView.get at h
    cases hc : getOr404 db.communities (fun c => c.slug == slug) with
    | error e => rw [hc] at h; simp at h
    | ok c =>
        rw [hc] at h
        injection h with h
        subst h
        intro q hq
        exact paginateGo_mem_length _ _ q hq

/-- C9, witness: the only page of the news list of community b holds one
post, at most five. -/
theorem C9_witness :
    ([nB] : List Post).length ≤ CommunityNewsListView.paginate_by := by
  have h := (C9_theorem exDB "b").1
    { community := cB, object_list := [nB], pages := [[nB]], post_type := "news" }
    (by decide)
  exact h [nB] (by decide)

/-- C10, counterexample: the claim says a nonexistent community slug yields
404 for every user; the anonymous user is rejected by the login gate with
PermissionDenied before the community lookup inside check_permissions runs. -/
theorem C10_counterexample :
    DeleteCommunityNewsView.post exDB "nope" "shared" anon =
      (.error .permissionDenied, exDB) ∧
    (Except.error HttpError.permissionDenied : Except HttpError Response) ≠
      .error .notFound :=
  ⟨by decide, by decide⟩

/-- C10, amended: inside every check_permissions the community lookup runs
before the permission string is evaluated: a verdict is always paired with
the community matching the URL slug and equals has_perm on exactly that
object, a nonexistent slug makes every check_permissions raise 404 whoever
the user is, and the full dispatch answers 404 for every authenticated
user (an unauthenticated one is stopped by the login gate first). -/
theorem C10_theorem (db : DB) (slug nslug : String) (u : User) (fd : FormData) :
    (∀ c b, AddCommunityNewsView.check_permissions db slug u = .ok (c, b) →
      c ∈ db.communities ∧ c.slug = slug ∧ b = hasPerm u "add_community_news" c) ∧
    (∀ c b, EditCommunityNewsView.check_permissions db slug u = .ok (c, b) →
      c ∈ db.communities ∧ c.slug = slug ∧ b = hasPerm u "change_community_news" c) ∧
    (∀ c b, DeleteCommunityNewsView.check_permissions db slug u = .ok (c, b) →
      c ∈ db.communities ∧ c.slug = slug ∧ b = hasPerm u "delete_community_news" c) ∧
    (∀ c b, AddCommunityResourceView.check_permissions db slug u = .ok (c, b) →
      c ∈ db.communities ∧ c.slug = slug ∧ b = hasPerm u "add_community_resource" c) ∧
    ((∀ c ∈ db.communities, c.slug ≠ slug) →
      AddCommunityNewsView.check_permissions db slug u = .error .notFound ∧
      EditCommunityNewsView.check_permissions db slug u = .error .notFound ∧
      DeleteCommunityNewsView.check_permissions db slug u = .error .notFound ∧
      AddCommunityResourceView.check_permissions db slug u = .error .notFound ∧
      (u.authenticated = true →
        AddCommunityNewsView.post db slug u fd = (.error .notFound, db) ∧
        EditCommunityNewsView.post db slug nslug u fd = (.error .notFound, db) ∧
        DeleteCommunityNewsView.post db slug nslug u = (.error .notFound, db) ∧
        AddCommunityResourceView.post db slug u fd = (.error .notFound, db))) := by
  refine ⟨?_, ?_, ?_, ?_, ?_⟩
  · intro c b h
    unfold AddCommunityNewsView.check_permissions at h
    cases hc : getOr404 db.communities (fun c0 => c0.slug == slug) with
    | error e => rw [hc] at h; simp at h
    | ok c0 =>
        rw [hc] at h
        dsimp only at h
        injection h with h
        injection h with h1 h2
        subst h1
        subst h2
        obtain ⟨hm, hs⟩ := getOr404_ok_mem hc
        exact ⟨hm, by simpa using hs, rfl⟩
  · intro c b h
    unfold EditCommunityNewsView.check_permissions at h
    cases hc : getOr404 db.communities (fun c0 => c0.slug == slug) with
    | error e => rw [hc] at h; simp at h
    | ok c0 =>
        rw [hc] at h
        dsimp only at h
        injection h with h
        injection h with h1 h2
        subst h1
        subst h2
        obtain ⟨hm, hs⟩ := getOr404_ok_mem hc
        exact ⟨hm, by simpa using hs, rfl⟩
  · intro c b h
    unfold DeleteCommunityNewsView.check_permissions at h
    cases hc : getOr404 db.communities (fun c0 => c0.slug == slug) with
    | error e => rw [hc] at h; simp at h
    | ok c0 =>
        rw [hc] at h
        dsimp only at h
        injection h with h
        injection h with h1 h2
        subst h1
        subst h2
        obtain ⟨hm, hs⟩ := getOr404_ok_mem hc
        exact ⟨hm, by simpa using hs, rfl⟩
  · intro c b h
    unfold AddCommunityResourceView.check_permissions at h
    cases hc : getOr404 db.communities (fun c0 => c0.slug == slug) with
    | error e => rw [hc] at h; simp at h
    | ok c0 =>
        rw [hc] at h
        dsimp only at h
        injection h with h
        injection h with h1 h2
        subst h1
        subst h2
        obtain ⟨hm, hs⟩ := getOr404_ok_mem hc
        exact ⟨hm, by simpa using hs, rfl⟩
  · intro h
    obtain ⟨h1, h2, h3, h4⟩ := checkPermissions_notFound db slug u h
    exact ⟨h1, h2, h3, h4, fun ha => mutating_notFound db slug nslug u fd ha h⟩

/-- C10, witness: for bob on community a the add-news verdict is the
has_perm value on exactly the community of slug a, and on the nonexistent
slug nope check_permissions raises 404 and the authenticated dispatch
answers 404. -/
theorem C10_witness :
    (cA ∈ exDB.communities ∧ cA.slug = "a" ∧
      false = hasPerm bob "add_community_news" cA) ∧
    AddCommunityNewsView.check_permissions exDB "nope" bob = .error .notFound ∧
    AddCommunityNewsView.post exDB "nope" bob fd0 = (.error .notFound, exDB) := by
  have h1 := (C10_theorem exDB "a" "shared" bob fd0).1 cA false (by decide)
  have h2 := (C10_theorem exDB "nope" "shared" bob fd0).2.2.2.2 (by decide)
  exact ⟨h1, h2.1, (h2.2.2.2.2 (by decide)).1⟩

end Blog
